import Mathlib

/-!
Shallow embedding of the `stories-facets` histogram range filter
(`FacetHistogramFilter`) and histogram bar (`FacetHistogramBar`).

Pixel coordinates, bar indices, widths and drag offsets are modelled as `Int`
(JS numbers; the arithmetic used by the code is `+`, `-`, `Math.max`,
`Math.min` and comparisons, which agree with `Int` arithmetic).
JS values that may be `undefined`, a string or a number (metadata fields)
are modelled by the sum type `JsVal`; fallible property accesses
(`undefined.label` throws a `TypeError`) are modelled with `Option`.
Stateful code is modelled by explicit state passing on a `FilterState`
record, with the DOM / observer side effects of a handler reified as a
list of `Effect`s it emits.
-/

/-- A continuous pixel range `{from, to}`. -/
structure PixelRange where
  «from» : Int
  «to» : Int
deriving DecidableEq

/-- An inclusive bar-index range `{from, to}`. -/
structure BarRange where
  «from» : Int
  «to» : Int
deriving DecidableEq

/-- A JavaScript value as it appears in bar metadata fields:
`undefined`, a string, or a number. -/
inductive JsVal where
  | undef : JsVal
  | str : String → JsVal
  | num : Int → JsVal
deriving DecidableEq

/-- JS truthiness of a `JsVal` (`undefined`, `""` and `0` are falsy). -/
def JsVal.truthy : JsVal → Bool
  | .undef => false
  | .str s => s ≠ ""
  | .num n => n ≠ 0

/-- JS `a || b`. -/
def jsOr (a b : JsVal) : JsVal := if a.truthy then a else b

/-- JS string coercion, as used by `+` on a string and a value. -/
def JsVal.asString : JsVal → String
  | .undef => "undefined"
  | .str s => s
  | .num n => toString n

/-- One entry of a bar's metadata list (`BarMetadataEntry`). -/
structure MetadataEntry where
  label : JsVal
  toLabel : JsVal
  binStart : JsVal
  binEnd : JsVal
  count : JsVal
  metadata : JsVal
deriving DecidableEq

/-- JS array indexing `l[i]` with an `Int` index: out of range gives
`undefined`, modelled as `none`. -/
def jsIndex (l : List α) (i : Int) : Option α :=
  if i < 0 then none else l.get? i.toNat

/-! ## FacetHistogramBar -/

/-- State of one `FacetHistogramBar`.  The three SVG layers share `x`, `y`
and `width`; the foreground (`_element`) and back (`_backElement`) layers
have independently rendered heights (`elemHeight`, `backHeight`), which the
`height` / `selectedHeight` setters keep in sync with the stored `_height`
and `_selectedHeight` fields. -/
structure FacetHistogramBar where
  x : Int
  y : Int
  width : Int
  height : Int
  selectedHeight : Option Int
  elemHeight : Int
  backHeight : Int
  highlighted : Bool
  metadata : List MetadataEntry
deriving DecidableEq

/-- The `x` setter: writes the `x` attribute of all three layers and stores
`_x`. -/
def setX (b : FacetHistogramBar) (v : Int) : FacetHistogramBar :=
  { b with x := v }

/-- The `y` setter: writes the `y` attribute of all three layers and stores
`_y`. -/
def setY (b : FacetHistogramBar) (v : Int) : FacetHistogramBar :=
  { b with y := v }

/-- The `width` setter: writes the `width` attribute of all three layers and
stores `_width`. -/
def setWidth (b : FacetHistogramBar) (v : Int) : FacetHistogramBar :=
  { b with width := v }

/-- The `height` setter: writes the foreground layer's height only when no
selection height is active (`_selectedHeight === null`), always writes the
back layer's height, and stores `_height`. -/
def setHeight (b : FacetHistogramBar) (v : Int) : FacetHistogramBar :=
  { b with
    elemHeight := if b.selectedHeight = none then v else b.elemHeight,
    backHeight := v,
    height := v }

/-- The `selectedHeight` setter: a non-null value is written to the
foreground layer's height; `null` reverts the foreground layer to the stored
`_height`.  The value is then stored as `_selectedHeight`. -/
def setSelectedHeight (b : FacetHistogramBar) (v : Option Int) : FacetHistogramBar :=
  match v with
  | some h => { b with elemHeight := h, selectedHeight := some h }
  | none => { b with elemHeight := b.height, selectedHeight := none }

/-- The `metadata` setter: stores the list as `_metadata`. -/
def setMetadata (b : FacetHistogramBar) (v : List MetadataEntry) : FacetHistogramBar :=
  { b with metadata := v }

/-- The selection-overlay invariant: the foreground layer's rendered height
is `_selectedHeight` when non-null and `_height` otherwise. -/
def overlayInv (b : FacetHistogramBar) : Prop :=
  b.elemHeight = b.selectedHeight.getD b.height

instance (b : FacetHistogramBar) : Decidable (overlayInv b) := by
  unfold overlayInv; infer_instance

/-- The synthesized view built by the `info` getter.  `binStart` / `binEnd`
are `none` when the getter omits those sequences. -/
structure BarInfo where
  label : List JsVal
  toLabel : List JsVal
  count : List JsVal
  metadata : List JsVal
  binStart : Option (List JsVal)
  binEnd : Option (List JsVal)
deriving DecidableEq

/-- The `info` getter, as a function of the current `_metadata` list.
On an empty list, `this._metadata[0]` is `undefined` and the subsequent
`.binStart` access throws, modelled as `none`. -/
def infoOf (l : List MetadataEntry) : Option BarInfo :=
  match l.head? with
  | none => none
  | some first =>
    some
      { label := l.map (fun e => jsOr e.label e.binStart)
        toLabel := l.map (fun e => jsOr e.toLabel e.binEnd)
        count := l.map (fun e => e.count)
        metadata := l.map (fun e => e.metadata)
        binStart :=
          if first.binStart ≠ JsVal.undef then some (l.map (fun e => e.binStart)) else none
        binEnd :=
          if first.binEnd ≠ JsVal.undef then some (l.map (fun e => e.binEnd)) else none }

/-! ## FacetHistogramFilter: drag geometry -/

/-- `calculateFrom` from `_initializeDragging`: move `from` by the offset,
clamped to `>= 0`; restore the one-bar minimum width by pushing `to`, or
snap to the rightmost window when `from + barWidth` would not stay below
`totalWidth`. -/
def calculateFrom (range : PixelRange) (offset barWidth totalWidth : Int) : PixelRange :=
  if max 0 (range.from + offset) > range.to - barWidth then
    if max 0 (range.from + offset) + barWidth < totalWidth then
      ⟨max 0 (range.from + offset), max 0 (range.from + offset) + barWidth⟩
    else
      ⟨totalWidth - barWidth, totalWidth⟩
  else
    ⟨max 0 (range.from + offset), range.to⟩

/-- `calculateTo` from `_initializeDragging`: move `to` by the offset,
clamped to `<= totalWidth`; restore the one-bar minimum width by pulling
`from`, or snap to the leftmost window when `to - barWidth` would not stay
above `0`. -/
def calculateTo (range : PixelRange) (offset barWidth totalWidth : Int) : PixelRange :=
  if min totalWidth (range.to + offset) < range.from + barWidth then
    if min totalWidth (range.to + offset) - barWidth > 0 then
      ⟨min totalWidth (range.to + offset) - barWidth, min totalWidth (range.to + offset)⟩
    else
      ⟨0, barWidth⟩
  else
    ⟨range.from, min totalWidth (range.to + offset)⟩

/-- The left-handle drag rule exactly as the spec words it: `from` moves by
the delta clamped to `>= 0`; if this would make `to - from < barWidth`, `to`
is pushed along to preserve the one-bar width, unless doing so would exceed
`totalWidth`, in which case both bounds snap to
`[totalWidth - barWidth, totalWidth]`.  Used only to compare against
`calculateFrom`. -/
def specCalculateFrom (range : PixelRange) (offset barWidth totalWidth : Int) : PixelRange :=
  if range.to - max 0 (range.from + offset) < barWidth then
    if totalWidth < max 0 (range.from + offset) + barWidth then
      ⟨totalWidth - barWidth, totalWidth⟩
    else
      ⟨max 0 (range.from + offset), max 0 (range.from + offset) + barWidth⟩
  else
    ⟨max 0 (range.from + offset), range.to⟩

/-- The right-handle drag rule exactly as the spec words it: `to` moves by
the delta clamped to `<= totalWidth`; insufficient width pulls `from` along
to `to - barWidth`, or the range snaps to `[0, barWidth]` if that would go
negative.  Used only to compare against `calculateTo`. -/
def specCalculateTo (range : PixelRange) (offset barWidth totalWidth : Int) : PixelRange :=
  if min totalWidth (range.to + offset) - range.from < barWidth then
    if min totalWidth (range.to + offset) - barWidth < 0 then
      ⟨0, barWidth⟩
    else
      ⟨min totalWidth (range.to + offset) - barWidth, min totalWidth (range.to + offset)⟩
  else
    ⟨range.from, min totalWidth (range.to + offset)⟩

/-- Validity of a pixel range within the histogram's total width. -/
def validPixelRange (totalWidth : Int) (p : PixelRange) : Prop :=
  0 ≤ p.from ∧ p.from ≤ p.to ∧ p.to ≤ totalWidth

instance (totalWidth : Int) (p : PixelRange) : Decidable (validPixelRange totalWidth p) := by
  unfold validPixelRange; infer_instance

/-- Validity of a bar range within the histogram's last bar index. -/
def validBarRange (lastBarIndex : Int) (r : BarRange) : Prop :=
  0 ≤ r.from ∧ r.from ≤ r.to ∧ r.to ≤ lastBarIndex

instance (lastBarIndex : Int) (r : BarRange) : Decidable (validBarRange lastBarIndex r) := by
  unfold validBarRange; infer_instance

/-! ## FacetHistogramFilter: state machine -/

/-- The `FacetHistogram` collaborator as the filter consumes it: its bars,
its geometry constants, and its two conversion functions. -/
structure Histogram where
  bars : List FacetHistogramBar
  barWidth : Int
  totalWidth : Int
  pixelRangeToBarRange : PixelRange → BarRange
  barRangeToPixelRange : BarRange → PixelRange

/-- An optional `spec` configuration for the filter; `displayFn` formats a
raw `binStart` / `binEnd` value. -/
structure FilterSpec where
  displayFn : Option (JsVal → JsVal)

/-- The mutable fields of a `FacetHistogramFilter`.  `hasHandler` records
whether `_onFilterChanged` holds a function. -/
structure FilterState where
  pixelRange : PixelRange
  barRange : BarRange
  maxBarRange : BarRange
  canDragLeft : Bool
  draggingLeft : Bool
  draggingLeftX : Int
  canDragRight : Bool
  draggingRight : Bool
  draggingRightX : Int
  hasHandler : Bool
deriving DecidableEq

/-- An observable side effect of the filter: a `updateUI` call with the
arguments it was given, or an `_onFilterChanged` notification. -/
inductive Effect where
  | uiUpdate : BarRange → PixelRange → Effect
  | notify : BarRange → Bool → Effect
deriving DecidableEq

/-- The notifications among a list of effects, as `(barRange, fromUserInput)`
pairs. -/
def notifyCalls : List Effect → List (BarRange × Bool)
  | [] => []
  | Effect.notify r b :: rest => (r, b) :: notifyCalls rest
  | Effect.uiUpdate _ _ :: rest => notifyCalls rest

/-- `setFilterBarRange`: derive the pixel range, store both ranges, refresh
the UI, and notify the registered handler (if any) with
`(barRange, fromUserInput)`. -/
def setFilterBarRange (hist : Histogram) (s : FilterState) (barRange : BarRange)
    (fromUserInput : Bool) : FilterState × List Effect :=
  ({ s with
      pixelRange := hist.barRangeToPixelRange barRange,
      barRange := barRange },
    Effect.uiUpdate barRange (hist.barRangeToPixelRange barRange) ::
      (if s.hasHandler then [Effect.notify barRange fromUserInput] else []))

/-- `setFilterPixelRange`: convert through
`histogram.pixelRangeToBarRange` and delegate to `setFilterBarRange`. -/
def setFilterPixelRange (hist : Histogram) (s : FilterState) (pixelRange : PixelRange)
    (fromUserInput : Bool) : FilterState × List Effect :=
  setFilterBarRange hist s (hist.pixelRangeToBarRange pixelRange) fromUserInput

/-- The `barRange` property setter:
`this.setFilterBarRange(value, false)`. -/
def barRangeSet (hist : Histogram) (s : FilterState) (value : BarRange) :
    FilterState × List Effect :=
  setFilterBarRange hist s value false

/-- The `pixelRange` property setter:
`this.setFilterPixelRange(value, false)`. -/
def pixelRangeSet (hist : Histogram) (s : FilterState) (value : PixelRange) :
    FilterState × List Effect :=
  setFilterPixelRange hist s value false

/-- The left handle's `mousedown` handler. -/
def leftMouseDown (s : FilterState) (clientX : Int) : FilterState :=
  { s with canDragLeft := true, draggingLeft := false, draggingLeftX := clientX }

/-- The right handle's `mousedown` handler. -/
def rightMouseDown (s : FilterState) (clientX : Int) : FilterState :=
  { s with canDragRight := true, draggingRight := false, draggingRightX := clientX }

/-- The element's `mousemove` handler: while a handle can drag, mark it as
dragging, recompute the tentative range from the committed `_pixelRange` and
the drag anchor, convert it with `pixelRangeToBarRange`, and call
`updateUI` — without committing. -/
def mouseMove (hist : Histogram) (s : FilterState) (clientX : Int) :
    FilterState × List Effect :=
  if s.canDragLeft || s.canDragRight then
    let s1 := if s.canDragLeft then { s with draggingLeft := true } else s
    let range1 := if s.canDragLeft then
        calculateFrom s.pixelRange (clientX - s.draggingLeftX) hist.barWidth hist.totalWidth
      else s.pixelRange
    let s2 := if s.canDragRight then { s1 with draggingRight := true } else s1
    let range2 := if s.canDragRight then
        calculateTo range1 (clientX - s.draggingRightX) hist.barWidth hist.totalWidth
      else range1
    (s2, [Effect.uiUpdate (hist.pixelRangeToBarRange range2) range2])
  else
    (s, [])

/-- `endDragging` (bound to `mouseup` and `mouseleave`): if a handle is
dragging, finish its drag, recompute the final range, and commit it through
`setFilterPixelRange(range, true)`; otherwise do nothing. -/
def endDragging (hist : Histogram) (s : FilterState) (clientX : Int) :
    FilterState × List Effect :=
  if s.draggingLeft || s.draggingRight then
    let s1 := if s.draggingLeft then
        { s with canDragLeft := false, draggingLeft := false } else s
    let range1 := if s.draggingLeft then
        calculateFrom s.pixelRange (clientX - s.draggingLeftX) hist.barWidth hist.totalWidth
      else s.pixelRange
    let s2 := if s.draggingRight then
        { s1 with canDragRight := false, draggingRight := false } else s1
    let range2 := if s.draggingRight then
        calculateTo range1 (clientX - s.draggingRightX) hist.barWidth hist.totalWidth
      else range1
    setFilterPixelRange hist s2 range2 true
  else
    (s, [])

/-- The `pageLeft` click handler: when `from > maxBarRange.from`, shift the
window left by its width, reducing the offset to land on the boundary, and
commit with `fromUserInput = true`. -/
def pageLeftClick (hist : Histogram) (s : FilterState) : FilterState × List Effect :=
  if s.maxBarRange.from < s.barRange.from then
    setFilterBarRange hist s
      ⟨s.barRange.from -
          (if s.barRange.from - (s.barRange.to - s.barRange.from + 1) < s.maxBarRange.from
            then s.barRange.from - s.maxBarRange.from
            else s.barRange.to - s.barRange.from + 1),
        s.barRange.to -
          (if s.barRange.from - (s.barRange.to - s.barRange.from + 1) < s.maxBarRange.from
            then s.barRange.from - s.maxBarRange.from
            else s.barRange.to - s.barRange.from + 1)⟩
      true
  else
    (s, [])

/-- The `pageRight` click handler: when `to < maxBarRange.to`, shift the
window right by its width, reducing the offset to land on the boundary, and
commit with `fromUserInput = true`. -/
def pageRightClick (hist : Histogram) (s : FilterState) : FilterState × List Effect :=
  if s.barRange.to < s.maxBarRange.to then
    setFilterBarRange hist s
      ⟨s.barRange.from +
          (if s.maxBarRange.to < s.barRange.to + (s.barRange.to - s.barRange.from + 1)
            then s.maxBarRange.to - s.barRange.to
            else s.barRange.to - s.barRange.from + 1),
        s.barRange.to +
          (if s.maxBarRange.to < s.barRange.to + (s.barRange.to - s.barRange.from + 1)
            then s.maxBarRange.to - s.barRange.to
            else s.barRange.to - s.barRange.from + 1)⟩
      true
  else
    (s, [])

/-! ## updateUI -/

/-- What `updateUI` renders. -/
structure UIState where
  labelText : String
  highlightedRange : BarRange
  rangeFilterLeft : Int
  rangeFilterWidth : Int
  rangeLabelHidden : Bool
  pageLeftDisabled : Bool
  pageRightDisabled : Bool
deriving DecidableEq

/-- `updateUI(barRange, pixelRange)`: reads
`bars[barRange.from].metadata[0]` and the last element of
`bars[barRange.to].metadata` with no bounds or emptiness guard (a failed
access throws, modelled as `none`), resolves the range label (through
`spec.displayFn` on the raw `binStart` / `binEnd` when it is a function),
highlights the range, positions the filter box, and toggles the
label-hidden / page-disabled flags against `_maxBarRange`. -/
def updateUI (hist : Histogram) (spec : Option FilterSpec) (maxBarRange : BarRange)
    (barRange : BarRange) (pixelRange : PixelRange) : Option UIState :=
  match jsIndex hist.bars barRange.from, jsIndex hist.bars barRange.to with
  | some leftBar, some rightBar =>
    match leftBar.metadata.head?, rightBar.metadata.getLast? with
    | some firstMetadata, some lastMetadata =>
      some
        { labelText :=
            match spec with
            | some sp =>
              match sp.displayFn with
              | some f =>
                (f firstMetadata.binStart).asString ++ " - " ++ (f lastMetadata.binEnd).asString
              | none => firstMetadata.label.asString ++ " - " ++ lastMetadata.toLabel.asString
            | none => firstMetadata.label.asString ++ " - " ++ lastMetadata.toLabel.asString
          highlightedRange := barRange
          rangeFilterLeft := pixelRange.from
          rangeFilterWidth := pixelRange.to - pixelRange.from
          rangeLabelHidden :=
            decide (barRange.from = maxBarRange.from) && decide (barRange.to = maxBarRange.to)
          pageLeftDisabled := decide (barRange.from = maxBarRange.from)
          pageRightDisabled := decide (barRange.to = maxBarRange.to) }
    | _, _ => none
  | _, _ => none

/-- Whether JS can index `bars[i]` and find a non-empty metadata list
there. -/
def hasValidMetadataAt (hist : Histogram) (i : Int) : Bool :=
  match jsIndex hist.bars i with
  | some b => !b.metadata.isEmpty
  | none => false

/-! ## Sample data for concrete evaluations -/

/-- A metadata entry `{label: "A", binStart: 0, binEnd: 10, count: 1}`
(no `toLabel`). -/
def sampleEntryA : MetadataEntry :=
  ⟨JsVal.str "A", JsVal.undef, JsVal.num 0, JsVal.num 10, JsVal.num 1, JsVal.undef⟩

/-- A metadata entry `{label: "B", binStart: 10, binEnd: 20, count: 2}`
(no `toLabel`). -/
def sampleEntryB : MetadataEntry :=
  ⟨JsVal.str "B", JsVal.undef, JsVal.num 10, JsVal.num 20, JsVal.num 2, JsVal.undef⟩

/-- A metadata entry with neither `binStart` nor `binEnd`. -/
def sampleEntryC : MetadataEntry :=
  ⟨JsVal.str "C", JsVal.undef, JsVal.undef, JsVal.undef, JsVal.num 3, JsVal.undef⟩

/-- A bar with the given metadata list. -/
def sampleBar (l : List MetadataEntry) : FacetHistogramBar :=
  ⟨0, 0, 20, 0, none, 0, 0, false, l⟩

/-- A bar with base height `7` and an active selection height `5`. -/
def sampleBarSel : FacetHistogramBar :=
  ⟨0, 0, 20, 7, some 5, 5, 7, false, []⟩

/-- A concrete two-bar histogram with `barWidth = 20`, `totalWidth = 200`
and simple linear conversion functions. -/
def histC : Histogram :=
  { bars := [sampleBar [sampleEntryA], sampleBar [sampleEntryB]]
    barWidth := 20
    totalWidth := 200
    pixelRangeToBarRange := fun p => ⟨p.from / 20, p.to / 20⟩
    barRangeToPixelRange := fun r => ⟨r.from * 20, (r.to + 1) * 20⟩ }

/-- A committed filter state with `barRange = {from: 2, to: 4}` and
`maxBarRange = {from: 0, to: 9}`, no drag in progress. -/
def st24 : FilterState :=
  { pixelRange := ⟨40, 100⟩
    barRange := ⟨2, 4⟩
    maxBarRange := ⟨0, 9⟩
    canDragLeft := false
    draggingLeft := false
    draggingLeftX := 0
    canDragRight := false
    draggingRight := false
    draggingRightX := 0
    hasHandler := true }

/-- `st24` with the left handle armed at anchor `clientX = 50`. -/
def stArmedLeft : FilterState :=
  { st24 with canDragLeft := true, draggingLeftX := 50 }

/-! ## Claims about the filter -/

/-- C1: the code's clamp-and-push drag rules coincide with the spec's. -/
theorem calculateFrom_to_match_spec (range : PixelRange) (offset barWidth totalWidth : Int) :
    calculateFrom range offset barWidth totalWidth =
      specCalculateFrom range offset barWidth totalWidth ∧
    calculateTo range offset barWidth totalWidth =
      specCalculateTo range offset barWidth totalWidth := by
  constructor
  · unfold calculateFrom specCalculateFrom
    split_ifs <;> simp only [PixelRange.mk.injEq] <;> omega
  · unfold calculateTo specCalculateTo
    split_ifs <;> simp only [PixelRange.mk.injEq] <;> omega

/-- C2: for any committed pixel range `0 ≤ from ≤ to ≤ totalWidth` (with
`0 ≤ barWidth ≤ totalWidth`) and any drag delta, both drag rules yield a
pixel range with `0 ≤ from ≤ to ≤ totalWidth` and `to - from ≥ barWidth`,
and any conversion to bar ranges that respects the domains then yields a
bar range with `0 ≤ from ≤ to ≤ lastBarIndex`. -/
theorem drag_preserves_range_invariant (range : PixelRange) (offset barWidth totalWidth : Int)
    (h0 : 0 ≤ range.from) (h1 : range.from ≤ range.to) (h2 : range.to ≤ totalWidth)
    (hb0 : 0 ≤ barWidth) (hb : barWidth ≤ totalWidth) :
    (validPixelRange totalWidth (calculateFrom range offset barWidth totalWidth) ∧
      barWidth ≤ (calculateFrom range offset barWidth totalWidth).to -
        (calculateFrom range offset barWidth totalWidth).from) ∧
    (validPixelRange totalWidth (calculateTo range offset barWidth totalWidth) ∧
      barWidth ≤ (calculateTo range offset barWidth totalWidth).to -
        (calculateTo range offset barWidth totalWidth).from) ∧
    (∀ (lastBarIndex : Int) (conv : PixelRange → BarRange),
      (∀ p, validPixelRange totalWidth p → validBarRange lastBarIndex (conv p)) →
      validBarRange lastBarIndex (conv (calculateFrom range offset barWidth totalWidth)) ∧
      validBarRange lastBarIndex (conv (calculateTo range offset barWidth totalWidth))) := by
  have hf : validPixelRange totalWidth (calculateFrom range offset barWidth totalWidth) ∧
      barWidth ≤ (calculateFrom range offset barWidth totalWidth).to -
        (calculateFrom range offset barWidth totalWidth).from := by
    unfold calculateFrom validPixelRange
    split_ifs <;> simp only [] <;> omega
  have ht : validPixelRange totalWidth (calculateTo range offset barWidth totalWidth) ∧
      barWidth ≤ (calculateTo range offset barWidth totalWidth).to -
        (calculateTo range offset barWidth totalWidth).from := by
    unfold calculateTo validPixelRange
    split_ifs <;> simp only [] <;> omega
  exact ⟨hf, ht, fun lastBarIndex conv hconv => ⟨hconv _ hf.1, hconv _ ht.1⟩⟩

/-- Witness for C2 at `range = [40, 120]`, `offset = -100`, `barWidth = 20`,
`totalWidth = 200`, with the conversion `p ↦ [p.from / 20, p.to / 20]`
clamped to `[0, 9]`. -/
theorem drag_preserves_range_invariant_witness :
    validPixelRange 200 (calculateFrom ⟨40, 120⟩ (-100) 20 200) ∧
    (20 : Int) ≤ (calculateFrom ⟨40, 120⟩ (-100) 20 200).to -
      (calculateFrom ⟨40, 120⟩ (-100) 20 200).from ∧
    validPixelRange 200 (calculateTo ⟨40, 120⟩ 500 20 200) ∧
    validBarRange 9 ((fun p : PixelRange =>
        (⟨max 0 (min 9 (p.from / 20)), max 0 (min 9 (p.to / 20))⟩ : BarRange))
      (calculateTo ⟨40, 120⟩ 500 20 200)) := by
  have h := drag_preserves_range_invariant ⟨40, 120⟩ (-100) 20 200
    (by decide) (by decide) (by decide) (by decide) (by decide)
  have h2 := drag_preserves_range_invariant ⟨40, 120⟩ 500 20 200
    (by decide) (by decide) (by decide) (by decide) (by decide)
  have hconv : ∀ p, validPixelRange 200 p →
      validBarRange 9 ((fun p : PixelRange =>
        (⟨max 0 (min 9 (p.from / 20)), max 0 (min 9 (p.to / 20))⟩ : BarRange)) p) := by
    intro p hp
    simp only [validPixelRange, validBarRange] at *
    omega
  exact ⟨h.1.1, h.1.2, h2.2.1.1, (h2.2.2 9 _ hconv).2⟩

/-- C3: for a committed `barRange` within `maxBarRange`, `pageLeft` is a
no-op at the left boundary and `pageRight` at the right boundary; otherwise
the window shifts by its own width `to - from + 1`, with the offset reduced
so the window lands exactly on the domain boundary when a full page would
overshoot. -/
theorem pagination_pages_by_window_width (hist : Histogram) (s : FilterState)
    (h1 : s.maxBarRange.from ≤ s.barRange.from) (h2 : s.barRange.from ≤ s.barRange.to)
    (h3 : s.barRange.to ≤ s.maxBarRange.to) :
    (s.barRange.from = s.maxBarRange.from → pageLeftClick hist s = (s, [])) ∧
    (s.barRange.to = s.maxBarRange.to → pageRightClick hist s = (s, [])) ∧
    (s.maxBarRange.from < s.barRange.from →
      ((pageLeftClick hist s).1.barRange.to - (pageLeftClick hist s).1.barRange.from
          = s.barRange.to - s.barRange.from) ∧
      (s.maxBarRange.from ≤ s.barRange.from - (s.barRange.to - s.barRange.from + 1) →
        (pageLeftClick hist s).1.barRange =
          ⟨s.barRange.from - (s.barRange.to - s.barRange.from + 1),
            s.barRange.to - (s.barRange.to - s.barRange.from + 1)⟩) ∧
      (s.barRange.from - (s.barRange.to - s.barRange.from + 1) < s.maxBarRange.from →
        (pageLeftClick hist s).1.barRange.from = s.maxBarRange.from)) ∧
    (s.barRange.to < s.maxBarRange.to →
      ((pageRightClick hist s).1.barRange.to - (pageRightClick hist s).1.barRange.from
          = s.barRange.to - s.barRange.from) ∧
      (s.barRange.to + (s.barRange.to - s.barRange.from + 1) ≤ s.maxBarRange.to →
        (pageRightClick hist s).1.barRange =
          ⟨s.barRange.from + (s.barRange.to - s.barRange.from + 1),
            s.barRange.to + (s.barRange.to - s.barRange.from + 1)⟩) ∧
      (s.maxBarRange.to < s.barRange.to + (s.barRange.to - s.barRange.from + 1) →
        (pageRightClick hist s).1.barRange.to = s.maxBarRange.to)) := by
  refine ⟨fun h => ?_, fun h => ?_, fun h => ?_, fun h => ?_⟩
  · unfold pageLeftClick
    rw [if_neg (by omega)]
  · unfold pageRightClick
    rw [if_neg (by omega)]
  · unfold pageLeftClick
    rw [if_pos h]
    unfold setFilterBarRange
    refine ⟨?_, fun hnv => ?_, fun hv => ?_⟩
    · simp only []
      split_ifs <;> omega
    · simp only [BarRange.mk.injEq]
      split_ifs <;> constructor <;> omega
    · simp only []
      split_ifs <;> omega
  · unfold pageRightClick
    rw [if_pos h]
    unfold setFilterBarRange
    refine ⟨?_, fun hnv => ?_, fun hv => ?_⟩
    · simp only []
      split_ifs <;> omega
    · simp only [BarRange.mk.injEq]
      split_ifs <;> constructor <;> omega
    · simp only []
      split_ifs <;> omega

/-- Witness for C3: with `maxBarRange = {from: 0, to: 9}`, from
`barRange = {from: 2, to: 4}` one `pageRight` yields `{from: 5, to: 7}` and
a second `pageRight` yields `{from: 7, to: 9}`. -/
theorem pagination_pages_by_window_width_witness :
    (pageRightClick histC st24).1.barRange = ⟨5, 7⟩ ∧
    (pageRightClick histC (pageRightClick histC st24).1).1.barRange = ⟨7, 9⟩ := by
  have h := (pagination_pages_by_window_width histC st24
    (by decide) (by decide) (by decide)).2.2.2 (by decide)
  have h2 := h.2.1 (by decide)
  exact ⟨by rw [h2]; decide, by decide⟩

/-- C4: `setFilterBarRange` / `setFilterPixelRange` notify the registered
handler exactly once per call (never when no handler is registered), with
the committed `barRange` and a `fromUserInput` flag matching the call's
origin: `true` for drag-end and pagination commits, `false` for the
`barRange` / `pixelRange` property setters. -/
theorem notification_fires_once_per_commit (hist : Histogram) (s : FilterState)
    (r : BarRange) (p : PixelRange) (b : Bool) (x : Int) :
    notifyCalls (setFilterBarRange hist s r b).2 =
      (if s.hasHandler then [(r, b)] else []) ∧
    setFilterPixelRange hist s p b =
      setFilterBarRange hist s (hist.pixelRangeToBarRange p) b ∧
    notifyCalls (barRangeSet hist s r).2 =
      (if s.hasHandler then [(r, false)] else []) ∧
    notifyCalls (pixelRangeSet hist s p).2 =
      (if s.hasHandler then [(hist.pixelRangeToBarRange p, false)] else []) ∧
    (notifyCalls (endDragging hist s x).2).map Prod.snd =
      (if (s.draggingLeft || s.draggingRight) && s.hasHandler then [true] else []) ∧
    (notifyCalls (pageLeftClick hist s).2).map Prod.snd =
      (if decide (s.maxBarRange.from < s.barRange.from) && s.hasHandler
        then [true] else []) ∧
    (notifyCalls (pageRightClick hist s).2).map Prod.snd =
      (if decide (s.barRange.to < s.maxBarRange.to) && s.hasHandler
        then [true] else []) := by
  cases hh : s.hasHandler <;> refine ⟨?_, rfl, ?_, ?_, ?_, ?_, ?_⟩
  case false.refine_1 | false.refine_2 | false.refine_3 | true.refine_1
      | true.refine_2 | true.refine_3 =>
    simp [setFilterBarRange, setFilterPixelRange, barRangeSet, pixelRangeSet,
      notifyCalls, hh]
  case false.refine_4 | true.refine_4 =>
    cases hdl : s.draggingLeft <;> cases hdr : s.draggingRight <;>
      simp [endDragging, setFilterPixelRange, setFilterBarRange, notifyCalls,
        hh, hdl, hdr]
  case false.refine_5 | true.refine_5 =>
    unfold pageLeftClick
    split_ifs with hc <;> simp [setFilterBarRange, notifyCalls, hh, hc] <;> simp_all <;> omega
  case false.refine_6 | true.refine_6 =>
    unfold pageRightClick
    split_ifs with hc <;> simp [setFilterBarRange, notifyCalls, hh, hc] <;> simp_all <;> omega

/-- C9: during a drag, a `mousemove` never mutates the committed
`_pixelRange` / `_barRange` and emits no notification; it recomputes the
tentative pixel range from the committed pixel range and the drag anchor,
converts it with `pixelRangeToBarRange`, and only calls `updateUI` with the
result. -/
theorem mousemove_repaints_without_commit (hist : Histogram) (s : FilterState)
    (clientX : Int) :
    (mouseMove hist s clientX).1.pixelRange = s.pixelRange ∧
    (mouseMove hist s clientX).1.barRange = s.barRange ∧
    notifyCalls (mouseMove hist s clientX).2 = [] ∧
    (s.canDragLeft = true → s.canDragRight = false →
      (mouseMove hist s clientX).2 =
        [Effect.uiUpdate
          (hist.pixelRangeToBarRange (calculateFrom s.pixelRange
            (clientX - s.draggingLeftX) hist.barWidth hist.totalWidth))
          (calculateFrom s.pixelRange
            (clientX - s.draggingLeftX) hist.barWidth hist.totalWidth)]) ∧
    (s.canDragLeft = false → s.canDragRight = true →
      (mouseMove hist s clientX).2 =
        [Effect.uiUpdate
          (hist.pixelRangeToBarRange (calculateTo s.pixelRange
            (clientX - s.draggingRightX) hist.barWidth hist.totalWidth))
          (calculateTo s.pixelRange
            (clientX - s.draggingRightX) hist.barWidth hist.totalWidth)]) := by
  unfold mouseMove
  cases hl : s.canDragLeft <;> cases hr : s.canDragRight <;>
    simp [hl, hr, notifyCalls]

/-- Witness for C9 with the left handle dragging on `stArmedLeft`
(anchor 50) at `clientX = 15`: the tentative range is
`calculateFrom [40, 100] (-35) 20 200 = [5, 100]`, converted to bars
`[0, 5]`, while the committed ranges stay `[40, 100]` / `{2, 4}`. -/
theorem mousemove_repaints_without_commit_witness :
    (mouseMove histC stArmedLeft 15).1.pixelRange = st24.pixelRange ∧
    (mouseMove histC stArmedLeft 15).1.barRange = st24.barRange ∧
    notifyCalls (mouseMove histC stArmedLeft 15).2 = [] ∧
    (mouseMove histC stArmedLeft 15).2 = [Effect.uiUpdate ⟨0, 5⟩ ⟨5, 100⟩] := by
  have h := mousemove_repaints_without_commit histC stArmedLeft 15
  exact ⟨h.1, h.2.1, h.2.2.1, (h.2.2.2.1 rfl rfl).trans (by decide)⟩

/-- C5 (counterexample): a `mousedown` on the left handle followed by a
`mouseup` with no intervening `mousemove` does not run the commit path: no
`updateUI` and no notification is emitted, and the handle is left armed
(`_canDragLeft` stays `true`) instead of returning to idle. -/
theorem click_without_drag_counterexample :
    (endDragging histC (leftMouseDown st24 10) 10).2 = [] ∧
    (endDragging histC (leftMouseDown st24 10) 10).1.canDragLeft = true ∧
    (endDragging histC (leftMouseDown st24 10) 10).1.barRange = st24.barRange ∧
    (endDragging histC (leftMouseDown st24 10) 10).1.pixelRange = st24.pixelRange := by
  decide

/-- C5 (amended): a pointer-down on either handle followed by pointer-up or
pointer-leave with no intervening pointer-move leaves the filter unchanged
apart from the arming itself: the commit path does not run, no UI refresh
or notification is emitted, and the handle stays armed rather than
returning to idle. -/
theorem click_without_drag_skips_commit (hist : Histogram) (s : FilterState) (x y : Int)
    (hL : s.draggingLeft = false) (hR : s.draggingRight = false) :
    endDragging hist (leftMouseDown s x) y = (leftMouseDown s x, []) ∧
    (leftMouseDown s x).canDragLeft = true ∧
    endDragging hist (rightMouseDown s x) y = (rightMouseDown s x, []) ∧
    (rightMouseDown s x).canDragRight = true := by
  unfold endDragging leftMouseDown rightMouseDown
  simp [hL, hR]

/-- Witness for C5 (amended) on the concrete state `st24`. -/
theorem click_without_drag_skips_commit_witness :
    endDragging histC (leftMouseDown st24 10) 11 = (leftMouseDown st24 10, []) ∧
    (leftMouseDown st24 10).canDragLeft = true ∧
    endDragging histC (rightMouseDown st24 10) 11 = (rightMouseDown st24 10, []) ∧
    (rightMouseDown st24 10).canDragRight = true :=
  click_without_drag_skips_commit histC st24 10 11 rfl rfl

/-- C6 (counterexample): with bars
`[bar0{binStart: 0, binEnd: 10, label: "A"}, bar1{binStart: 10, binEnd: 20,
label: "B"}]` (no `toLabel` anywhere) and committed range `{from: 0, to: 1}`,
`updateUI` renders `"A - undefined"`, not the `binEnd` fallback
`"A - 20"`: the raw `toLabel` is concatenated with no fallback. -/
theorem updateUI_label_counterexample :
    (updateUI histC none ⟨0, 1⟩ ⟨0, 1⟩ ⟨0, 40⟩).map UIState.labelText =
      some "A - undefined" ∧
    (updateUI histC none ⟨0, 1⟩ ⟨0, 1⟩ ⟨0, 40⟩).map UIState.labelText ≠
      some "A - 20" := by
  constructor <;> decide

/-- C6 (amended): `updateUI` resolves the from-label from the `label` of the
first metadata entry of the leftmost bar in range and the to-label from the
`toLabel` of the last metadata entry of the rightmost bar, concatenated with
no fallback (an absent `toLabel` renders as `"undefined"`); when a callable
`displayFn` is configured it is applied to the raw `binStart` / `binEnd`
values instead. -/
theorem updateUI_label_resolution (hist : Histogram) (maxR barRange : BarRange)
    (pixelRange : PixelRange) (leftBar rightBar : FacetHistogramBar)
    (firstMetadata lastMetadata : MetadataEntry) (f : JsVal → JsVal)
    (hl : jsIndex hist.bars barRange.from = some leftBar)
    (hr : jsIndex hist.bars barRange.to = some rightBar)
    (hf : leftBar.metadata.head? = some firstMetadata)
    (hm : rightBar.metadata.getLast? = some lastMetadata) :
    (updateUI hist none maxR barRange pixelRange).map UIState.labelText =
      some (firstMetadata.label.asString ++ " - " ++ lastMetadata.toLabel.asString) ∧
    (updateUI hist (some ⟨none⟩) maxR barRange pixelRange).map UIState.labelText =
      some (firstMetadata.label.asString ++ " - " ++ lastMetadata.toLabel.asString) ∧
    (updateUI hist (some ⟨some f⟩) maxR barRange pixelRange).map UIState.labelText =
      some ((f firstMetadata.binStart).asString ++ " - " ++
        (f lastMetadata.binEnd).asString) := by
  unfold updateUI
  simp [hl, hr, hf, hm]

/-- Witness for C6 (amended) on the two sample bars, with and without a
display formatter. -/
theorem updateUI_label_resolution_witness :
    (updateUI histC none ⟨0, 9⟩ ⟨0, 1⟩ ⟨0, 40⟩).map UIState.labelText =
      some (sampleEntryA.label.asString ++ " - " ++ sampleEntryB.toLabel.asString) ∧
    (updateUI histC (some ⟨some (fun v => JsVal.str (v.asString ++ "px"))⟩)
        ⟨0, 9⟩ ⟨0, 1⟩ ⟨0, 40⟩).map UIState.labelText =
      some ((JsVal.str (sampleEntryA.binStart.asString ++ "px")).asString ++ " - " ++
        (JsVal.str (sampleEntryB.binEnd.asString ++ "px")).asString) := by
  have h := updateUI_label_resolution histC ⟨0, 9⟩ ⟨0, 1⟩ ⟨0, 40⟩
    (sampleBar [sampleEntryA]) (sampleBar [sampleEntryB]) sampleEntryA sampleEntryB
    (fun v => JsVal.str (v.asString ++ "px")) rfl rfl rfl rfl
  exact ⟨h.1, h.2.2⟩

/-- C10: `updateUI` dereferences `bars[barRange.from].metadata[0]` and the
last element of `bars[barRange.to].metadata` with no guard, so it succeeds
exactly when both indices are within `[0, lastBarIndex]` and both indexed
bars have a non-empty metadata list; and `setFilterBarRange` passes its
`barRange` to `updateUI` unclamped and unvalidated. -/
theorem updateUI_totality_precondition (hist : Histogram) (spec : Option FilterSpec)
    (maxR barRange : BarRange) (pixelRange : PixelRange) (s : FilterState) (b : Bool) :
    ((updateUI hist spec maxR barRange pixelRange).isSome =
      (hasValidMetadataAt hist barRange.from && hasValidMetadataAt hist barRange.to)) ∧
    (hasValidMetadataAt hist barRange.from = true ↔
      (0 ≤ barRange.from ∧ barRange.from ≤ (hist.bars.length : Int) - 1 ∧
        ∃ bar, jsIndex hist.bars barRange.from = some bar ∧ bar.metadata ≠ [])) ∧
    ((setFilterBarRange hist s barRange b).1.barRange = barRange ∧
      (setFilterBarRange hist s barRange b).2.head? =
        some (Effect.uiUpdate barRange (hist.barRangeToPixelRange barRange))) := by
  refine ⟨?_, ?_, rfl, rfl⟩
  · unfold updateUI hasValidMetadataAt
    cases hfl : jsIndex hist.bars barRange.from <;>
      cases htl : jsIndex hist.bars barRange.to <;> simp
    case some.some leftBar rightBar =>
      cases hlm : leftBar.metadata.head? <;> cases hrm : rightBar.metadata.getLast? <;>
        simp only [Option.isSome_some, Option.isSome_none]
      · rw [List.head?_eq_none_iff.mp hlm]
        simp
      · rw [List.head?_eq_none_iff.mp hlm]
        simp
      · rw [List.getLast?_eq_none_iff.mp hrm]
        simp
      · have h1 : leftBar.metadata ≠ [] := by
          intro h
          rw [h] at hlm
          exact absurd hlm (by simp)
        have h2 : rightBar.metadata ≠ [] := by
          intro h
          rw [h] at hrm
          exact absurd hrm (by simp [List.getLast?_eq_none_iff])
        simp [List.isEmpty_iff, h1, h2]
  · unfold hasValidMetadataAt
    cases hfl : jsIndex hist.bars barRange.from <;> simp
    case some bar =>
      constructor
      · intro hne
        unfold jsIndex at hfl
        by_cases hneg : barRange.from < 0
        · rw [if_pos hneg] at hfl
          exact absurd hfl (by simp)
        · rw [if_neg hneg] at hfl
          obtain ⟨hlt, -⟩ := List.get?_eq_some.mp hfl
          exact ⟨by omega, by omega, hne⟩
      · exact fun h => h.2.2

/-- C7 (counterexample): with metadata
`[{label: "A", binStart: 0, binEnd: 10}, {label: "C"}]` the `info` view
contains a `binStart` sequence even though the second entry does not define
`binStart` — the getter tests only the first entry. -/
theorem info_binStart_gate_counterexample :
    ((infoOf [sampleEntryA, sampleEntryC]).map (fun i => i.binStart.isSome)).getD false
      = true ∧
    ([sampleEntryA, sampleEntryC].all (fun e => decide (e.binStart ≠ JsVal.undef)))
      = false := by
  constructor <;> decide

/-- C7 (amended): the bar's `info` view is recomputed from the current
metadata list on every access (a list assigned through the `metadata` setter
is what the next read aggregates), and yields parallel
label / toLabel / count / metadata sequences of the list's length — per
entry, `label` falling back to `binStart` and `toLabel` falling back to
`binEnd` — and contains `binStart` and `binEnd` sequences exactly when the
first entry defines them. -/
theorem info_recomputed_and_parallel (b : FacetHistogramBar) (l : List MetadataEntry)
    (first : MetadataEntry) (h : l.head? = some first) :
    infoOf (setMetadata b l).metadata = infoOf l ∧
    infoOf l = some
      { label := l.map (fun e => jsOr e.label e.binStart)
        toLabel := l.map (fun e => jsOr e.toLabel e.binEnd)
        count := l.map (fun e => e.count)
        metadata := l.map (fun e => e.metadata)
        binStart :=
          if first.binStart ≠ JsVal.undef then some (l.map (fun e => e.binStart)) else none
        binEnd :=
          if first.binEnd ≠ JsVal.undef then some (l.map (fun e => e.binEnd)) else none } ∧
    ((infoOf l).map (fun i => i.label.length) = some l.length ∧
      (infoOf l).map (fun i => i.toLabel.length) = some l.length ∧
      (infoOf l).map (fun i => i.count.length) = some l.length ∧
      (infoOf l).map (fun i => i.metadata.length) = some l.length) := by
  have h2 : infoOf l = some
      { label := l.map (fun e => jsOr e.label e.binStart)
        toLabel := l.map (fun e => jsOr e.toLabel e.binEnd)
        count := l.map (fun e => e.count)
        metadata := l.map (fun e => e.metadata)
        binStart :=
          if first.binStart ≠ JsVal.undef then some (l.map (fun e => e.binStart)) else none
        binEnd :=
          if first.binEnd ≠ JsVal.undef then some (l.map (fun e => e.binEnd)) else none } := by
    unfold infoOf
    rw [h]
  exact ⟨rfl, h2, by simp [h2], by simp [h2], by simp [h2], by simp [h2]⟩

/-- Witness for C7 (amended) on the two sample entries (whose `toLabel`s are
absent and fall back to `binEnd`). -/
theorem info_recomputed_and_parallel_witness :
    infoOf (setMetadata (sampleBar []) [sampleEntryA, sampleEntryB]).metadata =
      infoOf [sampleEntryA, sampleEntryB] ∧
    infoOf [sampleEntryA, sampleEntryB] = some
      { label := [sampleEntryA, sampleEntryB].map (fun e => jsOr e.label e.binStart)
        toLabel := [sampleEntryA, sampleEntryB].map (fun e => jsOr e.toLabel e.binEnd)
        count := [sampleEntryA, sampleEntryB].map (fun e => e.count)
        metadata := [sampleEntryA, sampleEntryB].map (fun e => e.metadata)
        binStart :=
          if sampleEntryA.binStart ≠ JsVal.undef
            then some ([sampleEntryA, sampleEntryB].map (fun e => e.binStart)) else none
        binEnd :=
          if sampleEntryA.binEnd ≠ JsVal.undef
            then some ([sampleEntryA, sampleEntryB].map (fun e => e.binEnd)) else none } ∧
    ((infoOf [sampleEntryA, sampleEntryB]).map (fun i => i.label.length) = some 2 ∧
      (infoOf [sampleEntryA, sampleEntryB]).map (fun i => i.toLabel.length) = some 2 ∧
      (infoOf [sampleEntryA, sampleEntryB]).map (fun i => i.count.length) = some 2 ∧
      (infoOf [sampleEntryA, sampleEntryB]).map (fun i => i.metadata.length) = some 2) :=
  info_recomputed_and_parallel (sampleBar []) [sampleEntryA, sampleEntryB] sampleEntryA rfl

/-- C8: the foreground (selection) layer's rendered height always equals
`selectedHeight` when non-null and the bar's base height otherwise: every
geometry setter preserves this invariant, setting `height` while
`selectedHeight !== null` changes the back layer but leaves the foreground
layer's height unchanged, and setting `selectedHeight` to `null` reverts the
foreground layer to the current base height. -/
theorem selection_overlay_invariant (b : FacetHistogramBar) (v : Int) (ov : Option Int)
    (h : overlayInv b) :
    overlayInv (setX b v) ∧ overlayInv (setY b v) ∧ overlayInv (setWidth b v) ∧
    overlayInv (setHeight b v) ∧ overlayInv (setSelectedHeight b ov) ∧
    (b.selectedHeight ≠ none → (setHeight b v).elemHeight = b.elemHeight) ∧
    (setHeight b v).backHeight = v ∧
    (setSelectedHeight b none).elemHeight = b.height := by
  unfold overlayInv setX setY setWidth setHeight setSelectedHeight at *
  cases hb : b.selectedHeight <;> cases ov <;> simp_all

/-- Witness for C8 on a bar with an active selection height `5` and base
height `7`. -/
theorem selection_overlay_invariant_witness :
    overlayInv (setX (sampleBarSel) 3) ∧ overlayInv (setY (sampleBarSel) 3) ∧
    overlayInv (setWidth (sampleBarSel) 3) ∧ overlayInv (setHeight (sampleBarSel) 9) ∧
    overlayInv (setSelectedHeight (sampleBarSel) none) ∧
    (setHeight (sampleBarSel) 9).elemHeight = (sampleBarSel).elemHeight ∧
    (setHeight (sampleBarSel) 9).backHeight = 9 ∧
    (setSelectedHeight (sampleBarSel) none).elemHeight = (sampleBarSel).height := by
  have h := selection_overlay_invariant sampleBarSel 9 none (by decide)
  exact ⟨selection_overlay_invariant sampleBarSel 3 none (by decide) |>.1,
    selection_overlay_invariant sampleBarSel 3 none (by decide) |>.2.1,
    selection_overlay_invariant sampleBarSel 3 none (by decide) |>.2.2.1,
    h.2.2.2.1, h.2.2.2.2.1, h.2.2.2.2.2.1 (by decide), h.2.2.2.2.2.2.1,
    h.2.2.2.2.2.2.2⟩
